import Mathlib

/-!
Verification of the ReadGuard policy in `src/read-guard.py`.

The script is a PreToolUse hook: it reads one JSON object from stdin,
decides whether a requested `Read` tool call may proceed, prints a
diagnostic or an amended-input payload, appends a best-effort audit-log
line, and exits with 0 (allow), 2 (block) or 1 (malformed input).

Shallow embedding: the pure policy (lines 104-159 of the script) becomes
`evaluate`; the whole `main` control flow (lines 70-159) becomes
`hookMain`, a function of the parsed input (`none` models a JSON decode
failure) and an explicit environment `Env` giving the filesystem answers
(existence, probed line count, probed byte size).  Log writes are modelled
as the list of entries the script attempts to append; the wall-clock
timestamp and the OS-level success of the write are environmental and are
outside the embedding.
-/

namespace ReadGuard

/-- `MAX_FILE_LINES = 1000` (line 20 of the script). -/
def MAX_FILE_LINES : Nat := 1000

/-- `MAX_FILE_BYTES = 50 * 1024` (line 21). -/
def MAX_FILE_BYTES : Nat := 50 * 1024

/-- `MAX_SINGLE_READ_LINES = 500` (line 22). -/
def MAX_SINGLE_READ_LINES : Nat := 500

/-- `MAX_SINGLE_READ_BYTES = 20 * 1024` (line 23). -/
def MAX_SINGLE_READ_BYTES : Nat := 20 * 1024

/-- `SKIP_EXTENSIONS` (line 25). -/
def SKIP_EXTENSIONS : List String :=
  [".png", ".jpg", ".jpeg", ".gif", ".bmp", ".ico", ".pdf", ".exe", ".dll", ".so", ".dylib"]

/-- Index of the last occurrence of `c` in `p`, or `-1` when absent:
Python's `str.rfind`. -/
def rfindChar (p : String) (c : Char) : Int :=
  match p.toList.reverse.findIdx? (fun x => x = c) with
  | some j => (p.toList.length : Int) - 1 - (j : Int)
  | none => -1

/-- The extension component of `os.path.splitext` (line 89), for
`/`-separated paths: the suffix from the last dot after the last
separator, unless the basename up to that dot is all dots (so `.bashrc`
has no extension). -/
def splitext_ext (p : String) : String :=
  let cs := p.toList
  let sepIndex := rfindChar p '/'
  let dotIndex := rfindChar p '.'
  if dotIndex > sepIndex then
    let start := (sepIndex + 1).toNat
    let stop := dotIndex.toNat
    if (List.range (stop - start)).any (fun k => cs.getD (start + k) '.' ≠ '.') then
      String.mk (cs.drop stop)
    else ""
  else ""

/-- One decimal place: `n` tenths rendered as `whole.frac ++ unit`. -/
def formatTenths (n : Nat) (unit : String) : String :=
  let whole := n / 10
  let frac := n % 10
  s!"{whole}.{frac}{unit}"

/-- `format_bytes` (lines 61-67).  Python formats `size / 1024` (a float)
with `:.1f`; here the one-decimal value is computed exactly over the
rationals with half-up rounding, which agrees with the script on every
value the theorems below touch (all exact tenths). -/
def format_bytes (size : Nat) : String :=
  if size ≥ 1024 * 1024 then
    formatTenths ((size * 10 * 2 + 1024 * 1024) / (2 * (1024 * 1024))) "MB"
  else if size ≥ 1024 then
    formatTenths ((size * 10 * 2 + 1024) / (2 * 1024)) "KB"
  else s!"{size}B"

/-- The fields `main` extracts from `tool_input` (lines 84-86). -/
structure ReadRequest where
  file_path : String
  offset : Option Int
  limit : Option Int
  deriving Repr, DecidableEq

/-- The parsed stdin payload (lines 77-78): the guarded tool's name and
the read parameters. -/
structure HookInput where
  tool_name : String
  tool_input : ReadRequest
  deriving Repr, DecidableEq

/-- Filesystem answers consumed by one invocation: `os.path.exists`
(line 94), `get_file_line_count` (line 98, `none` = probe failure) and
`get_file_size` (line 99, `none` = probe failure). -/
structure Env where
  fileExists : Bool
  probeLines : Option Nat
  probeBytes : Option Nat
  deriving Repr, DecidableEq

/-- The reason fragment for an exceeded line threshold (line 112). -/
def lineReasonPart (file_lines : Nat) : String :=
  s!"{file_lines} lines (>{MAX_FILE_LINES})"

/-- The reason fragment for an exceeded byte threshold (line 114). -/
def byteReasonPart (file_bytes : Nat) : String :=
  let actual := format_bytes file_bytes
  let cap := format_bytes MAX_FILE_BYTES
  s!"{actual} (>{cap})"

/-- `reason_parts` of rule 1 (lines 110-114): one fragment per exceeded
threshold, lines first. -/
def reason_parts (file_lines file_bytes : Nat) : List String :=
  (if file_lines > MAX_FILE_LINES then [lineReasonPart file_lines] else []) ++
  (if file_bytes > MAX_FILE_BYTES then [byteReasonPart file_bytes] else [])

/-- `reason = " AND ".join(reason_parts)` (line 115). -/
def rule1Reason (file_lines file_bytes : Nat) : String :=
  String.intercalate " AND " (reason_parts file_lines file_bytes)

/-- The rule-1 stderr diagnostic `error_msg` (lines 117-126). -/
def rule1ErrorMsg (file_path : String) (file_lines file_bytes : Nat) : String :=
  let reason := rule1Reason file_lines file_bytes
  let cap := format_bytes MAX_SINGLE_READ_BYTES
  s!"BLOCKED: File exceeds thresholds: {reason}.\n" ++
  "You MUST specify both 'offset' and 'limit' parameters.\n\n" ++
  "Recommended approach:\n" ++
  "1. Use Grep to find target line numbers first\n" ++
  s!"2. Then Read with offset and limit (max {MAX_SINGLE_READ_LINES} lines / {cap})\n\n" ++
  "Example:\n" ++
  s!"  Grep: pattern=\"function_name\" path=\"{file_path}\"\n" ++
  s!"  Read: file_path=\"{file_path}\", offset=<line-5>, limit=50"

/-- The rule-1 audit-log reason token (line 127). -/
def rule1LogReason (file_lines file_bytes : Nat) : String :=
  let reason := rule1Reason file_lines file_bytes
  s!"missing offset/limit: {reason}"

/-- The rule-2 stderr diagnostic (lines 133-136). -/
def rule2ErrorMsg (limit : Int) : String :=
  s!"BLOCKED: Requested limit={limit} exceeds maximum {MAX_SINGLE_READ_LINES} lines.\n" ++
  s!"Please reduce the limit parameter to {MAX_SINGLE_READ_LINES} or less."

/-- The rule-2 audit-log reason token (line 137). -/
def rule2LogReason (limit : Int) : String :=
  s!"limit too large: {limit}"

/-- The rule-3 `permissionDecisionReason` (line 147). -/
def amendReason (file_lines file_bytes : Nat) : String :=
  let fb := format_bytes file_bytes
  s!"Auto-added limit={MAX_SINGLE_READ_LINES} (file: {file_lines} lines, {fb})"

/-- The policy outcome: pass through, amend the input with an injected
limit, or block with a stderr diagnostic and an audit-log reason token. -/
inductive Decision where
  | allow
  | allowAmended (limit : Nat) (reason : String)
  | block (errorMsg : String) (logReason : String)
  deriving Repr, DecidableEq

/-- The policy evaluator, lines 104-159 of the script: rule 1 (mandatory
paging for files over either file-level threshold when offset or limit is
missing), rule 2 (supplied limit over `MAX_SINGLE_READ_LINES`), rule 3
(offset without limit gets a default limit injected), default allow. -/
def evaluate (req : ReadRequest) (file_lines file_bytes : Nat) : Decision :=
  if (file_lines > MAX_FILE_LINES ∨ file_bytes > MAX_FILE_BYTES) ∧
      (req.offset = none ∨ req.limit = none) then
    Decision.block (rule1ErrorMsg req.file_path file_lines file_bytes)
      (rule1LogReason file_lines file_bytes)
  else
    match req.limit with
    | some l =>
      if l > (MAX_SINGLE_READ_LINES : Int) then
        Decision.block (rule2ErrorMsg l) (rule2LogReason l)
      else
        Decision.allow
    | none =>
      match req.offset with
      | some _ =>
        Decision.allowAmended MAX_SINGLE_READ_LINES (amendReason file_lines file_bytes)
      | none => Decision.allow

/-- One attempted audit-log entry, the arguments `log_stats` interpolates
into its line (lines 48-56); the timestamp is taken at write time and is
environmental. -/
structure LogEntry where
  status : String
  lines : Nat
  bytes : Nat
  reason : String
  path : String
  deriving Repr, DecidableEq

/-- The line `log_stats` writes (line 54), given the environmental
timestamp string. -/
def logLine (timestamp : String) (e : LogEntry) : String :=
  s!"{timestamp} | {e.status} | lines={e.lines} bytes={e.bytes} | {e.reason} | {e.path}\n"

/-- The rule-3 stdout payload (lines 143-152): the structured
`hookSpecificOutput` with the injected limit. -/
structure AmendOutput where
  permissionDecisionReason : String
  updatedLimit : Nat
  deriving Repr, DecidableEq

/-- The observable result of one invocation: process exit status, the
optional stdout control payload, the optional stderr diagnostic, and the
audit-log entries the script attempts to append. -/
structure GuardResult where
  exitCode : Nat
  stdout : Option AmendOutput
  stderr : Option String
  log : List LogEntry
  deriving Repr, DecidableEq

/-- Python's `str.lower()` as used on the extension (line 89): lower-case
each character (the extensions compared against are ASCII). -/
def str_lower (s : String) : String :=
  String.mk (s.toList.map Char.toLower)

/-- `sys.exit(0)` with no output and no log attempt (lines 82, 91, 95,
102). -/
def silentPass : GuardResult :=
  { exitCode := 0, stdout := none, stderr := none, log := [] }

/-- Lines 104-159: run the policy on a probed file and produce the exit
status, streams and the single audit-log entry of that branch. -/
def respond (req : ReadRequest) (file_lines file_bytes : Nat) : GuardResult :=
  match evaluate req file_lines file_bytes with
  | Decision.block msg logReason =>
    { exitCode := 2, stdout := none, stderr := some msg,
      log := [{ status := "BLOCKED", lines := file_lines, bytes := file_bytes,
                reason := logReason, path := req.file_path }] }
  | Decision.allowAmended lim reason =>
    { exitCode := 0, stdout := some { permissionDecisionReason := reason, updatedLimit := lim },
      stderr := none,
      log := [{ status := "ALLOWED", lines := file_lines, bytes := file_bytes,
                reason := "auto-added limit", path := req.file_path }] }
  | Decision.allow =>
    { exitCode := 0, stdout := none, stderr := none,
      log := [{ status := "ALLOWED", lines := file_lines, bytes := file_bytes,
                reason := "passed", path := req.file_path }] }

/-- `main` (lines 70-159).  `input = none` models a JSON decode failure
on stdin (the script prints `[Hook Error] Invalid JSON: ...` and exits
with status 1); otherwise the fast bypasses run in order (wrong tool
name, denylisted extension, missing file, probe failure), each exiting 0
with no output and no log attempt, and a fully probed file goes to the
policy evaluator. -/
def hookMain (input : Option HookInput) (env : Env) : GuardResult :=
  match input with
  | none =>
    { exitCode := 1, stdout := none, stderr := some "[Hook Error] Invalid JSON", log := [] }
  | some d =>
    if d.tool_name ≠ "Read" then silentPass
    else
      let ext := str_lower (splitext_ext d.tool_input.file_path)
      if SKIP_EXTENSIONS.contains ext then silentPass
      else if ¬ env.fileExists then silentPass
      else
        match env.probeLines, env.probeBytes with
        | some fl, some fb => respond d.tool_input fl fb
        | some _, none => silentPass
        | none, some _ => silentPass
        | none, none => silentPass

end ReadGuard

namespace ReadGuard

/-! ### Helper lemmas -/

lemma evaluate_def (p : String) (off lim : Option Int) (L B : Nat) :
    evaluate ⟨p, off, lim⟩ L B =
      if (L > MAX_FILE_LINES ∨ B > MAX_FILE_BYTES) ∧ (off = none ∨ lim = none) then
        Decision.block (rule1ErrorMsg p L B) (rule1LogReason L B)
      else
        match lim with
        | some l =>
          if l > (MAX_SINGLE_READ_LINES : Int) then
            Decision.block (rule2ErrorMsg l) (rule2LogReason l)
          else Decision.allow
        | none =>
          match off with
          | some _ => Decision.allowAmended MAX_SINGLE_READ_LINES (amendReason L B)
          | none => Decision.allow := rfl

lemma evaluate_rule1 (req : ReadRequest) (L B : Nat)
    (hover : L > MAX_FILE_LINES ∨ B > MAX_FILE_BYTES)
    (hmiss : req.offset = none ∨ req.limit = none) :
    evaluate req L B =
      Decision.block (rule1ErrorMsg req.file_path L B) (rule1LogReason L B) := by
  obtain ⟨p, off, lim⟩ := req
  have hmiss' : off = none ∨ lim = none := hmiss
  rw [evaluate_def, if_pos ⟨hover, hmiss'⟩]

lemma evaluate_rule2 (req : ReadRequest) (L B : Nat) (l : Int)
    (hlim : req.limit = some l) (hgt : l > (MAX_SINGLE_READ_LINES : Int))
    (hno1 : req.offset ≠ none ∨ (L ≤ MAX_FILE_LINES ∧ B ≤ MAX_FILE_BYTES)) :
    evaluate req L B = Decision.block (rule2ErrorMsg l) (rule2LogReason l) := by
  obtain ⟨p, off, lim⟩ := req
  have hlim' : lim = some l := hlim
  have hoff' : off ≠ none ∨ (L ≤ MAX_FILE_LINES ∧ B ≤ MAX_FILE_BYTES) := hno1
  subst hlim'
  rcases hoff' with h | ⟨h1, h2⟩
  · rcases off with _ | o
    · exact absurd rfl h
    · simp [evaluate_def, hgt]
  · simp [evaluate_def, hgt, not_lt.mpr h1, not_lt.mpr h2]

lemma evaluate_block_of_limit_gt (req : ReadRequest) (L B : Nat) (l : Int)
    (hlim : req.limit = some l) (hgt : l > (MAX_SINGLE_READ_LINES : Int)) :
    ∃ m r, evaluate req L B = Decision.block m r := by
  by_cases h1 : (L > MAX_FILE_LINES ∨ B > MAX_FILE_BYTES) ∧
      (req.offset = none ∨ req.limit = none)
  · exact ⟨_, _, evaluate_rule1 req L B h1.1 h1.2⟩
  · rcases not_and_or.mp h1 with h | h
    · have hb : L ≤ MAX_FILE_LINES ∧ B ≤ MAX_FILE_BYTES := by
        push_neg at h; omega
      exact ⟨_, _, evaluate_rule2 req L B l hlim hgt (Or.inr hb)⟩
    · have ho : req.offset ≠ none := by
        intro hc
        exact h (Or.inl hc)
      exact ⟨_, _, evaluate_rule2 req L B l hlim hgt (Or.inl ho)⟩

lemma evaluate_allow_of_both_supplied (req : ReadRequest) (L B : Nat) (o l : Int)
    (hoff : req.offset = some o) (hlim : req.limit = some l)
    (hle : l ≤ (MAX_SINGLE_READ_LINES : Int)) :
    evaluate req L B = Decision.allow := by
  obtain ⟨p, off, lim⟩ := req
  have hoff' : off = some o := hoff
  have hlim' : lim = some l := hlim
  subst hoff'; subst hlim'
  have hno : ¬((L > MAX_FILE_LINES ∨ B > MAX_FILE_BYTES) ∧
      ((some o : Option Int) = none ∨ (some l : Option Int) = none)) := by
    rintro ⟨_, h | h⟩ <;> exact Option.noConfusion h
  simp [evaluate_def, hno, not_lt.mpr hle]

lemma evaluate_amend_of_offset_only (req : ReadRequest) (L B : Nat) (o : Int)
    (hoff : req.offset = some o) (hlim : req.limit = none)
    (hL : L ≤ MAX_FILE_LINES) (hB : B ≤ MAX_FILE_BYTES) :
    evaluate req L B =
      Decision.allowAmended MAX_SINGLE_READ_LINES (amendReason L B) := by
  obtain ⟨p, off, lim⟩ := req
  have hoff' : off = some o := hoff
  have hlim' : lim = none := hlim
  subst hoff'; subst hlim'
  simp [evaluate_def, not_lt.mpr hL, not_lt.mpr hB]

lemma evaluate_no_block_within (req : ReadRequest) (L B : Nat)
    (hL : L ≤ MAX_FILE_LINES) (hB : B ≤ MAX_FILE_BYTES)
    (hlim : ∀ l, req.limit = some l → l ≤ (MAX_SINGLE_READ_LINES : Int)) :
    ∀ m r, evaluate req L B ≠ Decision.block m r := by
  intro m r
  obtain ⟨p, off, lim⟩ := req
  have hlim' : ∀ l, lim = some l → l ≤ (MAX_SINGLE_READ_LINES : Int) := hlim
  rcases hl : lim with _ | l
  · subst hl
    rcases off with _ | o <;> simp [evaluate_def, not_lt.mpr hL, not_lt.mpr hB]
  · subst hl
    simp [evaluate_def, not_lt.mpr hL, not_lt.mpr hB, not_lt.mpr (hlim' l rfl)]

lemma hookMain_eq_respond (d : HookInput) (env : Env) (L B : Nat)
    (hname : d.tool_name = "Read")
    (hskip : str_lower (splitext_ext d.tool_input.file_path) ∉ SKIP_EXTENSIONS)
    (hex : env.fileExists = true)
    (hL : env.probeLines = some L) (hB : env.probeBytes = some B) :
    hookMain (some d) env = respond d.tool_input L B := by
  simp [hookMain, hname, hskip, hex, hL, hB]

lemma hookMain_some_cases (d : HookInput) (env : Env) :
    hookMain (some d) env = silentPass ∨
    ∃ L B, env.probeLines = some L ∧ env.probeBytes = some B ∧
      hookMain (some d) env = respond d.tool_input L B := by
  obtain ⟨fex, pl, pb⟩ := env
  by_cases hname : d.tool_name = "Read"
  · by_cases hskip : str_lower (splitext_ext d.tool_input.file_path) ∈ SKIP_EXTENSIONS
    · left; simp [hookMain, hname, hskip]
    · cases fex
      · left; simp [hookMain, hname, hskip]
      · rcases pl with _ | L
        · left; rcases pb with _ | B <;> simp [hookMain, hname, hskip]
        · rcases pb with _ | B
          · left; simp [hookMain, hname, hskip]
          · right
            exact ⟨L, B, rfl, rfl, by simp [hookMain, hname, hskip]⟩
  · left; simp [hookMain, hname]

lemma respond_exit_or (req : ReadRequest) (L B : Nat) :
    (respond req L B).exitCode = 0 ∨ (respond req L B).exitCode = 2 := by
  unfold respond
  rcases evaluate req L B <;> simp

lemma respond_of_block (req : ReadRequest) (L B : Nat) (m r : String)
    (h : evaluate req L B = Decision.block m r) :
    respond req L B =
      { exitCode := 2, stdout := none, stderr := some m,
        log := [{ status := "BLOCKED", lines := L, bytes := B,
                  reason := r, path := req.file_path }] } := by
  unfold respond
  rw [h]

lemma respond_of_allow (req : ReadRequest) (L B : Nat)
    (h : evaluate req L B = Decision.allow) :
    respond req L B =
      { exitCode := 0, stdout := none, stderr := none,
        log := [{ status := "ALLOWED", lines := L, bytes := B,
                  reason := "passed", path := req.file_path }] } := by
  unfold respond
  rw [h]

lemma respond_of_amend (req : ReadRequest) (L B : Nat) (lim : Nat) (reason : String)
    (h : evaluate req L B = Decision.allowAmended lim reason) :
    respond req L B =
      { exitCode := 0,
        stdout := some { permissionDecisionReason := reason, updatedLimit := lim },
        stderr := none,
        log := [{ status := "ALLOWED", lines := L, bytes := B,
                  reason := "auto-added limit", path := req.file_path }] } := by
  unfold respond
  rw [h]

/-! ### Claim theorems -/

/-- C1: on an existing, non-skipped file whose metrics exceed
`MAX_FILE_LINES` or `MAX_FILE_BYTES`, a request missing offset or limit
is blocked (exit 2) with the rule-1 diagnostic, and the joined reason
names exactly the exceeded thresholds: only the line part, only the byte
part, or both joined with " AND ". -/
theorem oversized_unpaged_read_blocks (d : HookInput) (env : Env) (L B : Nat)
    (hname : d.tool_name = "Read")
    (hskip : str_lower (splitext_ext d.tool_input.file_path) ∉ SKIP_EXTENSIONS)
    (hex : env.fileExists = true)
    (hpl : env.probeLines = some L) (hpb : env.probeBytes = some B)
    (hover : L > MAX_FILE_LINES ∨ B > MAX_FILE_BYTES)
    (hmiss : d.tool_input.offset = none ∨ d.tool_input.limit = none) :
    (hookMain (some d) env).exitCode = 2 ∧
    (hookMain (some d) env).stderr = some (rule1ErrorMsg d.tool_input.file_path L B) ∧
    (L > MAX_FILE_LINES → B ≤ MAX_FILE_BYTES → rule1Reason L B = lineReasonPart L) ∧
    (L ≤ MAX_FILE_LINES → B > MAX_FILE_BYTES → rule1Reason L B = byteReasonPart B) ∧
    (L > MAX_FILE_LINES → B > MAX_FILE_BYTES →
      rule1Reason L B = lineReasonPart L ++ " AND " ++ byteReasonPart B) := by
  have he := evaluate_rule1 d.tool_input L B hover hmiss
  have hr := hookMain_eq_respond d env L B hname hskip hex hpl hpb
  rw [hr, respond_of_block _ _ _ _ _ he]
  refine ⟨rfl, rfl, ?_, ?_, ?_⟩
  · intro h1 h2
    unfold rule1Reason reason_parts
    rw [if_pos h1, if_neg (not_lt.mpr h2)]
    rfl
  · intro h1 h2
    unfold rule1Reason reason_parts
    rw [if_neg (not_lt.mpr h1), if_pos h2]
    rfl
  · intro h1 h2
    unfold rule1Reason reason_parts
    rw [if_pos h1, if_pos h2]
    rfl

/-- Witness for C1, the spec's concrete scenario 1: a 1200-line, 10 KB
file read with neither offset nor limit is blocked and the reason names
only the line threshold. -/
theorem oversized_unpaged_read_blocks_witness :
    (hookMain (some ⟨"Read", ⟨"/tmp/big.txt", none, none⟩⟩)
        ⟨true, some 1200, some 10240⟩).exitCode = 2 ∧
    (hookMain (some ⟨"Read", ⟨"/tmp/big.txt", none, none⟩⟩)
        ⟨true, some 1200, some 10240⟩).stderr =
      some (rule1ErrorMsg "/tmp/big.txt" 1200 10240) ∧
    rule1Reason 1200 10240 = lineReasonPart 1200 := by
  have h := oversized_unpaged_read_blocks ⟨"Read", ⟨"/tmp/big.txt", none, none⟩⟩
      ⟨true, some 1200, some 10240⟩ 1200 10240 rfl (by decide) rfl rfl rfl
      (Or.inl (by decide)) (Or.inl rfl)
  exact ⟨h.1, h.2.1, h.2.2.1 (by decide) (by decide)⟩

/-- C2: a supplied limit over `MAX_SINGLE_READ_LINES` always blocks
(exit 2) on an existing, non-skipped, probed file, whatever the metrics
and whether an offset is supplied; whenever the mandatory-paging rule is
not the one firing, the diagnostic is the rule-2 message citing the
requested limit against the 500-line ceiling. -/
theorem limit_over_ceiling_blocks (d : HookInput) (env : Env) (L B : Nat) (l : Int)
    (hname : d.tool_name = "Read")
    (hskip : str_lower (splitext_ext d.tool_input.file_path) ∉ SKIP_EXTENSIONS)
    (hex : env.fileExists = true)
    (hpl : env.probeLines = some L) (hpb : env.probeBytes = some B)
    (hlim : d.tool_input.limit = some l)
    (hgt : l > (MAX_SINGLE_READ_LINES : Int)) :
    (hookMain (some d) env).exitCode = 2 ∧
    ((d.tool_input.offset ≠ none ∨ (L ≤ MAX_FILE_LINES ∧ B ≤ MAX_FILE_BYTES)) →
      (hookMain (some d) env).stderr = some (rule2ErrorMsg l)) := by
  have hr := hookMain_eq_respond d env L B hname hskip hex hpl hpb
  constructor
  · obtain ⟨m, r, he⟩ := evaluate_block_of_limit_gt d.tool_input L B l hlim hgt
    rw [hr, respond_of_block _ _ _ _ _ he]
  · intro hno1
    have he := evaluate_rule2 d.tool_input L B l hlim hgt hno1
    rw [hr, respond_of_block _ _ _ _ _ he]

/-- Witness for C2, the spec's concrete scenario 4: a 50-line file
requested with limit 600 is blocked with the rule-2 diagnostic. -/
theorem limit_over_ceiling_blocks_witness :
    (hookMain (some ⟨"Read", ⟨"/tmp/small.txt", none, some 600⟩⟩)
        ⟨true, some 50, some 2048⟩).exitCode = 2 ∧
    (hookMain (some ⟨"Read", ⟨"/tmp/small.txt", none, some 600⟩⟩)
        ⟨true, some 50, some 2048⟩).stderr = some (rule2ErrorMsg 600) := by
  have h := limit_over_ceiling_blocks ⟨"Read", ⟨"/tmp/small.txt", none, some 600⟩⟩
      ⟨true, some 50, some 2048⟩ 50 2048 600 rfl (by decide) rfl rfl rfl rfl (by decide)
  exact ⟨h.1, h.2 (Or.inr ⟨by decide, by decide⟩)⟩

/-- C3: on an existing, non-skipped file within both file-level
thresholds, a request with an offset but no limit is allowed with the
input amended to carry exactly limit 500 (`MAX_SINGLE_READ_LINES`). -/
theorem offset_without_limit_autocompleted (d : HookInput) (env : Env) (L B : Nat) (o : Int)
    (hname : d.tool_name = "Read")
    (hskip : str_lower (splitext_ext d.tool_input.file_path) ∉ SKIP_EXTENSIONS)
    (hex : env.fileExists = true)
    (hpl : env.probeLines = some L) (hpb : env.probeBytes = some B)
    (hoff : d.tool_input.offset = some o) (hlim : d.tool_input.limit = none)
    (hL : L ≤ MAX_FILE_LINES) (hB : B ≤ MAX_FILE_BYTES) :
    (hookMain (some d) env).exitCode = 0 ∧
    (hookMain (some d) env).stdout =
      some { permissionDecisionReason := amendReason L B, updatedLimit := 500 } := by
  have he := evaluate_amend_of_offset_only d.tool_input L B o hoff hlim hL hB
  have hr := hookMain_eq_respond d env L B hname hskip hex hpl hpb
  rw [hr, respond_of_amend _ _ _ _ _ he]
  exact ⟨rfl, rfl⟩

/-- Witness for C3, the spec's concrete scenario 3: a 50-line, 2 KB file
requested with offset 5 and no limit gets limit 500 injected. -/
theorem offset_without_limit_autocompleted_witness :
    (hookMain (some ⟨"Read", ⟨"/tmp/notes.txt", some 5, none⟩⟩)
        ⟨true, some 50, some 2048⟩).exitCode = 0 ∧
    (hookMain (some ⟨"Read", ⟨"/tmp/notes.txt", some 5, none⟩⟩)
        ⟨true, some 50, some 2048⟩).stdout =
      some { permissionDecisionReason := amendReason 50 2048, updatedLimit := 500 } := by
  exact offset_without_limit_autocompleted ⟨"Read", ⟨"/tmp/notes.txt", some 5, none⟩⟩
      ⟨true, some 50, some 2048⟩ 50 2048 5 rfl (by decide) rfl rfl rfl rfl rfl
      (by decide) (by decide)

/-- C4: on a file within both file-level thresholds, with any supplied
limit at most `MAX_SINGLE_READ_LINES`, the guard never blocks: the exit
status is 0 and no diagnostic is written. -/
theorem within_thresholds_never_blocked (d : HookInput) (env : Env)
    (hpl : ∀ L, env.probeLines = some L → L ≤ MAX_FILE_LINES)
    (hpb : ∀ B, env.probeBytes = some B → B ≤ MAX_FILE_BYTES)
    (hlim : ∀ l, d.tool_input.limit = some l → l ≤ (MAX_SINGLE_READ_LINES : Int)) :
    (hookMain (some d) env).exitCode = 0 ∧ (hookMain (some d) env).stderr = none := by
  rcases hookMain_some_cases d env with h | ⟨L, B, hL, hB, h⟩
  · rw [h]; exact ⟨rfl, rfl⟩
  · rw [h]
    have hnb := evaluate_no_block_within d.tool_input L B (hpl L hL) (hpb B hB) hlim
    rcases he : evaluate d.tool_input L B with _ | ⟨lim, reason⟩ | ⟨m, r⟩
    · rw [respond_of_allow _ _ _ he]; exact ⟨rfl, rfl⟩
    · rw [respond_of_amend _ _ _ _ _ he]; exact ⟨rfl, rfl⟩
    · exact absurd he (hnb m r)

/-- Witness for C4: a 900-line, 4 KB file requested with limit 100 is not
blocked. -/
theorem within_thresholds_never_blocked_witness :
    (hookMain (some ⟨"Read", ⟨"/tmp/ok.txt", none, some 100⟩⟩)
        ⟨true, some 900, some 4096⟩).exitCode = 0 ∧
    (hookMain (some ⟨"Read", ⟨"/tmp/ok.txt", none, some 100⟩⟩)
        ⟨true, some 900, some 4096⟩).stderr = none := by
  exact within_thresholds_never_blocked ⟨"Read", ⟨"/tmp/ok.txt", none, some 100⟩⟩
      ⟨true, some 900, some 4096⟩
      (fun L hL => by injection hL with h; subst h; decide)
      (fun B hB => by injection hB with h; subst h; decide)
      (fun l hl => by injection hl with h; subst h; decide)

/-- C5: on an existing, non-skipped file exceeding a file-level
threshold, a request already supplying an offset and a limit at most
`MAX_SINGLE_READ_LINES` is plainly allowed: exit 0, no stdout payload, no
diagnostic. -/
theorem oversized_file_paged_request_allowed (d : HookInput) (env : Env)
    (L B : Nat) (o l : Int)
    (hname : d.tool_name = "Read")
    (hskip : str_lower (splitext_ext d.tool_input.file_path) ∉ SKIP_EXTENSIONS)
    (hex : env.fileExists = true)
    (hpl : env.probeLines = some L) (hpb : env.probeBytes = some B)
    (_hover : L > MAX_FILE_LINES ∨ B > MAX_FILE_BYTES)
    (hoff : d.tool_input.offset = some o) (hlim : d.tool_input.limit = some l)
    (hle : l ≤ (MAX_SINGLE_READ_LINES : Int)) :
    (hookMain (some d) env).exitCode = 0 ∧
    (hookMain (some d) env).stdout = none ∧
    (hookMain (some d) env).stderr = none := by
  have he := evaluate_allow_of_both_supplied d.tool_input L B o l hoff hlim hle
  have hr := hookMain_eq_respond d env L B hname hskip hex hpl hpb
  rw [hr, respond_of_allow _ _ _ he]
  exact ⟨rfl, rfl, rfl⟩

/-- Witness for C5, the spec's concrete scenario 2: an 800-line, 60 KB
file (over the byte threshold) requested with offset 10 and limit 50 is
allowed. -/
theorem oversized_file_paged_request_allowed_witness :
    (hookMain (some ⟨"Read", ⟨"/tmp/data.txt", some 10, some 50⟩⟩)
        ⟨true, some 800, some 61440⟩).exitCode = 0 ∧
    (hookMain (some ⟨"Read", ⟨"/tmp/data.txt", some 10, some 50⟩⟩)
        ⟨true, some 800, some 61440⟩).stdout = none ∧
    (hookMain (some ⟨"Read", ⟨"/tmp/data.txt", some 10, some 50⟩⟩)
        ⟨true, some 800, some 61440⟩).stderr = none := by
  exact oversized_file_paged_request_allowed ⟨"Read", ⟨"/tmp/data.txt", some 10, some 50⟩⟩
      ⟨true, some 800, some 61440⟩ 800 61440 10 50 rfl (by decide) rfl rfl rfl
      (Or.inr (by decide)) rfl rfl (by decide)

/-- C6: when the metrics probe fails (no line count or no byte size), the
guard fails open: exit 0, no stdout payload, no diagnostic, whatever the
request's offset and limit. -/
theorem probe_failure_fails_open (d : HookInput) (env : Env)
    (hfail : env.probeLines = none ∨ env.probeBytes = none) :
    (hookMain (some d) env).exitCode = 0 ∧
    (hookMain (some d) env).stdout = none ∧
    (hookMain (some d) env).stderr = none := by
  rcases hookMain_some_cases d env with h | ⟨L, B, hL, hB, h⟩
  · rw [h]; exact ⟨rfl, rfl, rfl⟩
  · rcases hfail with hf | hf
    · rw [hL] at hf; exact Option.noConfusion hf
    · rw [hB] at hf; exact Option.noConfusion hf

/-- Witness for C6: a permission-denied probe on an existing file with a
whole-file request is allowed. -/
theorem probe_failure_fails_open_witness :
    (hookMain (some ⟨"Read", ⟨"/tmp/secret.txt", none, none⟩⟩)
        ⟨true, none, none⟩).exitCode = 0 ∧
    (hookMain (some ⟨"Read", ⟨"/tmp/secret.txt", none, none⟩⟩)
        ⟨true, none, none⟩).stdout = none ∧
    (hookMain (some ⟨"Read", ⟨"/tmp/secret.txt", none, none⟩⟩)
        ⟨true, none, none⟩).stderr = none := by
  exact probe_failure_fails_open ⟨"Read", ⟨"/tmp/secret.txt", none, none⟩⟩
      ⟨true, none, none⟩ (Or.inl rfl)

/-- C9: a malformed stdin payload exits with status 1, produces no stdout
payload and no log entry; well-formed invocations never exit 1; and every
invocation exits with exactly one of 0, 1 or 2. -/
theorem malformed_input_distinct_exit (env : Env) :
    (hookMain none env).exitCode = 1 ∧
    (hookMain none env).stdout = none ∧
    (hookMain none env).log = [] ∧
    (∀ d : HookInput, (hookMain (some d) env).exitCode ≠ 1) ∧
    (∀ input : Option HookInput,
      (hookMain input env).exitCode = 0 ∨ (hookMain input env).exitCode = 1 ∨
        (hookMain input env).exitCode = 2) := by
  refine ⟨rfl, rfl, rfl, ?_, ?_⟩
  · intro d
    rcases hookMain_some_cases d env with h | ⟨L, B, _, _, h⟩
    · rw [h]; simp [silentPass]
    · rw [h]; rcases respond_exit_or d.tool_input L B with h0 | h2 <;> omega
  · intro input
    rcases input with _ | d
    · right; left; rfl
    · rcases hookMain_some_cases d env with h | ⟨L, B, _, _, h⟩
      · left; rw [h]; rfl
      · rcases respond_exit_or d.tool_input L B with h0 | h2
        · left; rw [h]; exact h0
        · right; right; rw [h]; exact h2

/-- Witness for C9: a malformed payload exits 1 while a concrete
well-formed invocation does not. -/
theorem malformed_input_distinct_exit_witness :
    (hookMain none ⟨true, some 10, some 100⟩).exitCode = 1 ∧
    (hookMain (some ⟨"Read", ⟨"/tmp/a.txt", none, none⟩⟩)
        ⟨true, some 10, some 100⟩).exitCode ≠ 1 := by
  have h := malformed_input_distinct_exit ⟨true, some 10, some 100⟩
  exact ⟨h.1, h.2.2.2.1 ⟨"Read", ⟨"/tmp/a.txt", none, none⟩⟩⟩

/-- C10: offset 0 counts as a supplied offset: on an oversized file a
request with offset 0 and a within-ceiling limit is not caught by the
mandatory paging rule (plain allow), and on a within-thresholds file
offset 0 with no limit triggers auto-completion with limit 500. -/
theorem offset_zero_counts_as_supplied (p : String) (L B : Nat) :
    (∀ l : Int, (L > MAX_FILE_LINES ∨ B > MAX_FILE_BYTES) →
        l ≤ (MAX_SINGLE_READ_LINES : Int) →
        evaluate ⟨p, some 0, some l⟩ L B = Decision.allow) ∧
    (L ≤ MAX_FILE_LINES → B ≤ MAX_FILE_BYTES →
        evaluate ⟨p, some 0, none⟩ L B =
          Decision.allowAmended MAX_SINGLE_READ_LINES (amendReason L B)) := by
  constructor
  · intro l _hover hle
    exact evaluate_allow_of_both_supplied _ L B 0 l rfl rfl hle
  · intro hL hB
    exact evaluate_amend_of_offset_only _ L B 0 rfl rfl hL hB

/-- Witness for C10: offset 0 with limit 50 on a 1200-line file is
allowed; offset 0 without limit on a 50-line file gets limit 500. -/
theorem offset_zero_counts_as_supplied_witness :
    evaluate ⟨"/tmp/a.txt", some 0, some 50⟩ 1200 1024 = Decision.allow ∧
    evaluate ⟨"/tmp/b.txt", some 0, none⟩ 50 2048 =
      Decision.allowAmended 500 (amendReason 50 2048) := by
  refine ⟨(offset_zero_counts_as_supplied "/tmp/a.txt" 1200 1024).1 50
      (Or.inl (by decide)) (by decide), ?_⟩
  exact (offset_zero_counts_as_supplied "/tmp/b.txt" 50 2048).2 (by decide) (by decide)

/-- C7 counterexample: `MAX_SINGLE_READ_BYTES` is 20480, yet a request
reading a whole 40960-byte (100-line) file is allowed with no diagnostic,
so exceeding `MAX_SINGLE_READ_BYTES` does not make the decision Block. -/
theorem read_over_byte_ceiling_allowed_cex :
    MAX_SINGLE_READ_BYTES < 40960 ∧
    (hookMain (some ⟨"Read", ⟨"/tmp/mid.txt", none, none⟩⟩)
        ⟨true, some 100, some 40960⟩).exitCode = 0 ∧
    (hookMain (some ⟨"Read", ⟨"/tmp/mid.txt", none, none⟩⟩)
        ⟨true, some 100, some 40960⟩).stderr = none := by
  exact ⟨by decide, rfl, rfl⟩

/-- C7 amended: `MAX_SINGLE_READ_BYTES` is never consulted by a blocking
rule (it only appears inside rule-1 guidance text): a request on a file
within both file-level thresholds, with any supplied limit within the
line ceiling, is never blocked even when the bytes it reads exceed
`MAX_SINGLE_READ_BYTES`; the only enforced per-request ceiling is
`MAX_SINGLE_READ_LINES`. -/
theorem maxReadBytes_not_enforced (req : ReadRequest) (L B : Nat)
    (_hbig : B > MAX_SINGLE_READ_BYTES)
    (hL : L ≤ MAX_FILE_LINES) (hB : B ≤ MAX_FILE_BYTES)
    (hlim : ∀ l, req.limit = some l → l ≤ (MAX_SINGLE_READ_LINES : Int)) :
    ∀ m r, evaluate req L B ≠ Decision.block m r :=
  evaluate_no_block_within req L B hL hB hlim

/-- Witness for the amended C7: a whole-file read of a 40960-byte file is
over the byte ceiling, evaluates to allow, and is not a block. -/
theorem maxReadBytes_not_enforced_witness :
    MAX_SINGLE_READ_BYTES < 40960 ∧
    evaluate ⟨"/tmp/mid.txt", none, none⟩ 100 40960 = Decision.allow ∧
    evaluate ⟨"/tmp/mid.txt", none, none⟩ 100 40960 ≠ Decision.block "" "" := by
  refine ⟨by decide, by decide, ?_⟩
  exact maxReadBytes_not_enforced ⟨"/tmp/mid.txt", none, none⟩ 100 40960
      (by decide) (by decide) (by decide) (fun l hl => Option.noConfusion hl) "" ""

/-- C8 counterexample: a fast-bypass invocation (tool name `Write`) on an
existing, probed file appends no audit-log line at all, so it is not the
case that every invocation appends exactly one line. -/
theorem bypass_invocation_logs_nothing_cex :
    (hookMain (some ⟨"Write", ⟨"/tmp/x.txt", none, none⟩⟩)
        ⟨true, some 10, some 100⟩).log = [] ∧
    (hookMain (some ⟨"Write", ⟨"/tmp/x.txt", none, none⟩⟩)
        ⟨true, some 10, some 100⟩).log.length ≠ 1 := by
  exact ⟨rfl, by decide⟩

/-- C8 amended: every invocation that reaches the policy evaluator (Read
tool, non-denylisted extension, existing file, successful probe) attempts
exactly one audit-log line, whose entry carries an ALLOWED/BLOCKED
status, the probed line and byte metrics, a reason token, and the file
path; fast bypasses and malformed payloads attempt none. -/
theorem one_log_line_per_policy_invocation (d : HookInput) (env : Env) (L B : Nat)
    (hname : d.tool_name = "Read")
    (hskip : str_lower (splitext_ext d.tool_input.file_path) ∉ SKIP_EXTENSIONS)
    (hex : env.fileExists = true)
    (hpl : env.probeLines = some L) (hpb : env.probeBytes = some B) :
    ∃ e : LogEntry, (hookMain (some d) env).log = [e] ∧
      (e.status = "ALLOWED" ∨ e.status = "BLOCKED") ∧
      e.lines = L ∧ e.bytes = B ∧ e.path = d.tool_input.file_path := by
  rw [hookMain_eq_respond d env L B hname hskip hex hpl hpb]
  rcases he : evaluate d.tool_input L B with _ | ⟨lim, reason⟩ | ⟨m, r⟩
  · rw [respond_of_allow _ _ _ he]
    exact ⟨_, rfl, Or.inl rfl, rfl, rfl, rfl⟩
  · rw [respond_of_amend _ _ _ _ _ he]
    exact ⟨_, rfl, Or.inl rfl, rfl, rfl, rfl⟩
  · rw [respond_of_block _ _ _ _ _ he]
    exact ⟨_, rfl, Or.inr rfl, rfl, rfl, rfl⟩

/-- Witness for the amended C8: a policy-reached invocation attempts
exactly one audit-log line. -/
theorem one_log_line_per_policy_invocation_witness :
    (hookMain (some ⟨"Read", ⟨"/tmp/ok.txt", none, none⟩⟩)
        ⟨true, some 10, some 100⟩).log.length = 1 := by
  obtain ⟨e, he, _⟩ := one_log_line_per_policy_invocation
      ⟨"Read", ⟨"/tmp/ok.txt", none, none⟩⟩ ⟨true, some 10, some 100⟩ 10 100
      rfl (by decide) rfl rfl rfl
  rw [he]
  rfl
